import Mathlib

/-!
Verification of the Sleeptober bot's statistics/scoring engine, leaderboard
ranking and window selection, and time-window resolver, as a shallow
embedding of `sleeptober-bot_main.py`.  Hours are modelled as exact real
numbers, Python ints as `Int`/`Nat`, Python exceptions as `Except`.
-/

/-- The record returned by `compute_sleep_stats` (the `SleepStats` namedtuple
in the source). -/
structure SleepStats where
  days : ℕ
  min : ℝ
  max : ℝ
  mean : ℝ
  median : ℝ
  deviation : ℝ
  deficit : ℝ
  surplus : ℝ
  score : ℝ
  legacy_score : ℝ
  experimental_score : ℤ
  debug : List ℝ

/-- The failure mode of the statistics engine: `min(hours)` raises on an
empty sequence in the source; the spec names this condition
`InsufficientData`. -/
inductive StatsError where
  | insufficientData
deriving DecidableEq

/-- `hours = [h for h in user_data if h is not None]` (line 130). -/
def hours_of (user_data : List (Option ℝ)) : List ℝ :=
  user_data.filterMap id

/-- `stats.mean(hours)`: the arithmetic mean. -/
noncomputable def stats_mean (hours : List ℝ) : ℝ :=
  hours.sum / hours.length

open Classical in
/-- Stable insertion of `x` into a list: `x` is placed before the first
element `y` with `before x y`. -/
noncomputable def insert_stable {α : Type} (before : α → α → Prop) (x : α) :
    List α → List α
  | [] => [x]
  | y :: t => if before x y then x :: y :: t else y :: insert_stable before x t

/-- Stable sort (models Python's stable `sorted`): with a reflexive total
`before`, equal elements keep their original relative order. -/
noncomputable def sort_stable {α : Type} (before : α → α → Prop) :
    List α → List α
  | [] => []
  | x :: t => insert_stable before x (sort_stable before t)

/-- `stats.median(hours)`: middle element of the sorted list, or the mean of
the two middle elements for even length. -/
noncomputable def stats_median (hours : List ℝ) : ℝ :=
  let s := sort_stable (fun a b => a ≤ b) hours
  let n := hours.length
  if n % 2 = 1 then s.getD (n / 2) 0
  else (s.getD (n / 2 - 1) 0 + s.getD (n / 2) 0) / 2

/-- `LOWER = 8` (line 144). -/
def LOWER : ℝ := 8

/-- `UPPER = 9` (line 145). -/
def UPPER : ℝ := 9

/-- `PUNISH_DEFICIT = 1` (line 162). -/
def PUNISH_DEFICIT : ℝ := 1

/-- `PUNISH_SURPLUS = LOWER / (24 - UPPER)` (line 164). -/
noncomputable def PUNISH_SURPLUS : ℝ := LOWER / (24 - UPPER)

/-- `SCORE_OFFSET = 31 * LOWER * PUNISH_DEFICIT` (line 176): note the
hardcoded `31`. -/
noncomputable def SCORE_OFFSET : ℝ := 31 * LOWER * PUNISH_DEFICIT

open Classical in
/-- The deficit accumulated by the loop at lines 146-150:
`if h < LOWER: hours_deficit += LOWER - h`. -/
noncomputable def hours_deficit (hours : List ℝ) : ℝ :=
  (hours.map (fun h => if h < LOWER then LOWER - h else 0)).sum

open Classical in
/-- The surplus accumulated by the loop at lines 146-150:
`elif UPPER < h: hours_surplus += h - UPPER`. -/
noncomputable def hours_surplus (hours : List ℝ) : ℝ :=
  (hours.map (fun h => if h < LOWER then 0 else if UPPER < h then h - UPPER else 0)).sum

/-- `hours_variance = sum(h**2 for h in hours)/days_logged - hours_mean**2`
(line 139, population formula). -/
noncomputable def hours_variance (hours : List ℝ) : ℝ :=
  (hours.map (fun h => h ^ 2)).sum / hours.length - stats_mean hours ^ 2

/-- `hours_deviation = hours_variance**.5` (line 140). -/
noncomputable def hours_deviation (hours : List ℝ) : ℝ :=
  Real.sqrt (hours_variance hours)

/-- `days_unlogged = window_length - days_logged` (line 133, with the window
length `get_saturating_sleeptober_index()+1` passed explicitly). -/
def days_unlogged (window_length : ℕ) (hours : List ℝ) : ℤ :=
  (window_length : ℤ) - (hours.length : ℤ)

/-- The branch condition at line 171: whether the mean sits on the deficit
side of the weighted midpoint of the [LOWER, UPPER] band. -/
def mean_branch_cond (hours : List ℝ) : Prop :=
  stats_mean hours ≤
    LOWER + (UPPER - LOWER) * PUNISH_DEFICIT / (PUNISH_DEFICIT + PUNISH_SURPLUS)

open Classical in
/-- `hours_deficit_adjusted_for_unlogged` (lines 168-174): the deficit side
receives `days_unlogged * PUNISH_UNLOGGED` when the mean is on the deficit
side, where `PUNISH_UNLOGGED = 2 * hours_deviation` (line 166). -/
noncomputable def deficit_adjusted (window_length : ℕ) (hours : List ℝ) : ℝ :=
  if mean_branch_cond hours then
    hours_deficit hours + (days_unlogged window_length hours : ℝ) * (2 * hours_deviation hours)
  else hours_deficit hours

open Classical in
/-- `hours_surplus_adjusted_for_unlogged` (lines 169-174). -/
noncomputable def surplus_adjusted (window_length : ℕ) (hours : List ℝ) : ℝ :=
  if mean_branch_cond hours then hours_surplus hours
  else hours_surplus hours + (days_unlogged window_length hours : ℝ) * (2 * hours_deviation hours)

open Classical in
/-- `sleeptober_score` (lines 177-180): offset minus weighted adjusted
deficit/surplus, halved when more than half the window is unlogged. -/
noncomputable def main_score (window_length : ℕ) (hours : List ℝ) : ℝ :=
  let score0 := SCORE_OFFSET - deficit_adjusted window_length hours * PUNISH_DEFICIT
      - surplus_adjusted window_length hours * PUNISH_SURPLUS
  if days_unlogged window_length hours > (hours.length : ℤ) then score0 / 2 else score0

open Classical in
/-- Python's built-in `round`: round half to even. -/
noncomputable def python_round (x : ℝ) : ℤ :=
  if Int.fract x = 1 / 2 then (if Even ⌊x⌋ then ⌊x⌋ else ⌊x⌋ + 1) else round x

open Classical in
/-- `mean_heuristic` (line 188). -/
noncomputable def mean_heuristic (hours : List ℝ) : ℝ :=
  if stats_mean hours - LOWER < 0 then |stats_mean hours - LOWER| / 8
  else |stats_mean hours - LOWER| / (24 - LOWER)

/-- `heuristics = [mean_heuristic, deviation_heuristic, notlogged_heuristic]`
(lines 188-192). -/
noncomputable def heuristics (window_length : ℕ) (hours : List ℝ) : List ℝ :=
  [mean_heuristic hours, hours_deviation hours / 12,
   (days_unlogged window_length hours : ℝ) / 31]

/-- `experimental_score` (lines 193-197): product-combine the three
heuristics, rescale into [0, 2^16] and round. -/
noncomputable def experimental_score (window_length : ℕ) (hours : List ℝ) : ℤ :=
  python_round
    ((((heuristics window_length hours).map (fun h => 1 + h)).prod - 1)
      / (2 ^ (heuristics window_length hours).length - 1) * 2 ^ 16)

/-- `compute_sleep_stats` (lines 128-212): derive the full `SleepStats`
record, failing like `min([])` when no reading is set. -/
noncomputable def compute_sleep_stats (window_length : ℕ)
    (user_data : List (Option ℝ)) : Except StatsError SleepStats :=
  match hours_of user_data with
  | [] => .error .insufficientData
  | h0 :: rest =>
    .ok ⟨(h0 :: rest).length,
         rest.foldl min h0,
         rest.foldl max h0,
         stats_mean (h0 :: rest),
         stats_median (h0 :: rest),
         hours_deviation (h0 :: rest),
         hours_deficit (h0 :: rest),
         hours_surplus (h0 :: rest),
         main_score window_length (h0 :: rest),
         1000 * ((h0 :: rest).length : ℝ) - hours_deficit (h0 :: rest)
           - hours_surplus (h0 :: rest) / 2,
         experimental_score window_length (h0 :: rest),
         heuristics window_length (h0 :: rest)⟩

/-- The `score` observation of `compute_sleep_stats`. -/
noncomputable def score_of (window_length : ℕ) (user_data : List (Option ℝ)) : Option ℝ :=
  (compute_sleep_stats window_length user_data).toOption.map SleepStats.score

/-- The `experimental_score` observation of `compute_sleep_stats`. -/
noncomputable def experimental_of (window_length : ℕ)
    (user_data : List (Option ℝ)) : Option ℤ :=
  (compute_sleep_stats window_length user_data).toOption.map SleepStats.experimental_score

/-- `min_days = max(0, min(min_days, current_date_index+1))` (line 447). -/
def min_days_clamped (min_days : ℤ) (current_date_index : ℕ) : ℤ :=
  max 0 (min min_days ((current_date_index : ℤ) + 1))

/-- The leaderboard's per-user statistics collection (line 499): compute the
stats of each user's truncated data and keep users with
`days >= min_days`; a failing `compute_sleep_stats` propagates, as the
generator expression propagates the exception. -/
noncomputable def collect_stats (current_date_index : ℕ) (min_days : ℤ) :
    List (String × List (Option ℝ)) → Except StatsError (List (String × SleepStats))
  | [] => .ok []
  | (user_id, user_data) :: rest => do
    let sleep_stats ← compute_sleep_stats (current_date_index + 1)
      (user_data.take (current_date_index + 1))
    let tail ← collect_stats current_date_index min_days rest
    if min_days ≤ (sleep_stats.days : ℤ) then .ok ((user_id, sleep_stats) :: tail)
    else .ok tail

/-- The leaderboard pipeline (lines 446-507): clamp `min_days`, collect and
filter per-user stats, stable-sort by the chosen key (descending when
`sort_down`), and locate the requesting user's zero-based rank
(`user_index = length` when absent, like the while loop at lines 505-507). -/
noncomputable def leaderboard (data : List (String × List (Option ℝ)))
    (current_date_index : ℕ) (sort_key : SleepStats → ℝ) (sort_down : Bool)
    (min_days : ℤ) (target_user_id : String) :
    Except StatsError (List (String × SleepStats) × ℕ) := do
  let md := min_days_clamped min_days current_date_index
  let entries ← collect_stats current_date_index md data
  let global_leaderboard := sort_stable
    (fun a b => if sort_down then sort_key b.2 ≤ sort_key a.2
                else sort_key a.2 ≤ sort_key b.2) entries
  let user_index := global_leaderboard.findIdx (fun e => e.1 == target_user_id)
  .ok (global_leaderboard, user_index)

/-- `USER_PREVIEW_WINDOW = 2` (line 514). -/
def USER_PREVIEW_WINDOW : ℕ := 2

/-- The leaderboard window selection (lines 513-520): clamp `show_top_n` to
`≥ 0`; when the requester's context window starts at or before one past the
top block, extend the top slice over it, otherwise emit a separate context
slice `[user_index-radius : user_index+radius+1]`. -/
def select_window {α : Type} (ranks : List α) (user_index : ℕ)
    (show_top_n : ℤ) (radius : ℕ) : List α × List α :=
  let n : ℤ := max show_top_n 0
  if (user_index : ℤ) - (radius : ℤ) ≤ n + 1 then
    (ranks.take (max n.toNat (user_index + radius + 1)), [])
  else
    (ranks.take n.toNat,
     (ranks.drop (user_index - radius)).take ((user_index + radius + 1) - (user_index - radius)))

/-- Python slice `ranks[a:b]` for `0 ≤ a ≤ b`. -/
def slice_py {α : Type} (ranks : List α) (a b : ℕ) : List α :=
  (ranks.drop a).take (b - a)

/-- Day-of-year index (0-based) of an instant counted in minutes from the
start of a (non-leap) year; models Python `datetime`'s calendar. -/
def day_of_year (mins : ℕ) : ℕ := mins / 1440

/-- Calendar month (1-12) of a day-of-year index, non-leap year. -/
def month_of_day_index (d : ℕ) : ℕ :=
  if d < 31 then 1 else if d < 59 then 2 else if d < 90 then 3
  else if d < 120 then 4 else if d < 151 then 5 else if d < 181 then 6
  else if d < 212 then 7 else if d < 243 then 8 else if d < 273 then 9
  else if d < 304 then 10 else if d < 334 then 11 else if d < 365 then 12
  else 13

/-- Calendar month (1-12) of an instant in minutes, non-leap year. -/
def month_of (mins : ℕ) : ℕ :=
  month_of_day_index (day_of_year mins)

/-- Day-of-year on which the month of a day-of-year index starts. -/
def month_start_of_day_index (d : ℕ) : ℕ :=
  if d < 31 then 0 else if d < 59 then 31 else if d < 90 then 59
  else if d < 120 then 90 else if d < 151 then 120 else if d < 181 then 151
  else if d < 212 then 181 else if d < 243 then 212 else if d < 273 then 243
  else if d < 304 then 273 else if d < 334 then 304 else if d < 365 then 334
  else 365

/-- Calendar day-of-month (1-based) of an instant in minutes. -/
def day_of_month (mins : ℕ) : ℕ :=
  day_of_year mins - month_start_of_day_index (day_of_year mins) + 1

/-- Day-of-year on which month `m` (1-12) starts, non-leap year. -/
def month_start_of_year (m : ℕ) : ℕ :=
  if m = 1 then 0 else if m = 2 then 31 else if m = 3 then 59
  else if m = 4 then 90 else if m = 5 then 120 else if m = 6 then 151
  else if m = 7 then 181 else if m = 8 then 212 else if m = 9 then 243
  else if m = 10 then 273 else if m = 11 then 304 else 334

/-- Minutes-from-start-of-year of calendar datetime (month, day, hour,
minute). -/
def encode_datetime (month day hour minute : ℕ) : ℕ :=
  (month_start_of_year month + (day - 1)) * 1440 + hour * 60 + minute

/-- `get_sleeptober_index` (lines 113-120): subtract 22 hours, and return
`day - 1` of the resulting instant when its month is October. -/
def get_sleeptober_index (now : ℕ) : Option ℕ :=
  let yesterday := now - 22 * 60
  if month_of yesterday = 10 then some (day_of_month yesterday - 1) else none

/-- `get_saturating_sleeptober_index` (lines 122-126). -/
def get_saturating_sleeptober_index (now : ℕ) : ℕ :=
  (get_sleeptober_index now).getD 30

/-! ## Helper lemmas -/

lemma hours_of_replicate_some (n : ℕ) (a : ℝ) :
    hours_of (List.replicate n (some a)) = List.replicate n a := by
  induction n with
  | zero => rfl
  | succ k ih => simpa [hours_of, List.replicate_succ] using ih

lemma hours_of_all_none (ud : List (Option ℝ)) (h : ∀ x ∈ ud, x = none) :
    hours_of ud = [] := by
  induction ud with
  | nil => rfl
  | cons x t ih =>
    have hx : x = none := h x (by simp)
    subst hx
    simpa [hours_of] using ih (fun y hy => h y (by simp [hy]))

lemma mem_hours_of (ud : List (Option ℝ)) (x : ℝ) (hx : x ∈ hours_of ud) :
    some x ∈ ud := by
  obtain ⟨a, ha, hax⟩ := List.mem_filterMap.mp hx
  have hax2 : a = some x := hax
  rw [← hax2]
  exact ha

lemma score_of_cons (w : ℕ) (ud : List (Option ℝ)) (h0 : ℝ) (rest : List ℝ)
    (hh : hours_of ud = h0 :: rest) :
    score_of w ud = some (main_score w (h0 :: rest)) := by
  simp [score_of, compute_sleep_stats, hh, Except.toOption]

lemma sqrt_onefortyfour : Real.sqrt 144 = 12 := by
  rw [show (144:ℝ) = 12 ^ 2 by norm_num]
  exact Real.sqrt_sq (by norm_num)

lemma score_replicate_zero : score_of 31 (List.replicate 31 (some (0:ℝ))) = some 0 := by
  rw [score_of_cons 31 _ 0 (List.replicate 30 0)
    (by rw [hours_of_replicate_some]; rfl)]
  have hcond : mean_branch_cond (0 :: List.replicate 30 (0:ℝ)) := by
    simp [mean_branch_cond, stats_mean, LOWER, UPPER, PUNISH_DEFICIT, PUNISH_SURPLUS]
    norm_num
  simp [main_score, deficit_adjusted, surplus_adjusted, hcond, days_unlogged,
    hours_deficit, hours_surplus, SCORE_OFFSET, LOWER, UPPER, PUNISH_DEFICIT, PUNISH_SURPLUS]
  norm_num

lemma score_replicate_twentyfour :
    score_of 31 (List.replicate 31 (some (24:ℝ))) = some 0 := by
  rw [score_of_cons 31 _ 24 (List.replicate 30 24)
    (by rw [hours_of_replicate_some]; rfl)]
  have hcond : ¬ mean_branch_cond (24 :: List.replicate 30 (24:ℝ)) := by
    simp [mean_branch_cond, stats_mean, LOWER, UPPER, PUNISH_DEFICIT, PUNISH_SURPLUS]
    norm_num
  simp [main_score, deficit_adjusted, surplus_adjusted, hcond, days_unlogged,
    hours_deficit, hours_surplus, SCORE_OFFSET, LOWER, UPPER, PUNISH_DEFICIT, PUNISH_SURPLUS]
  norm_num

lemma score_replicate_eight (k : ℕ) :
    score_of (k + 1) (List.replicate (k + 1) (some (8:ℝ))) = some 248 := by
  rw [score_of_cons (k+1) _ 8 (List.replicate k 8)
    (by rw [hours_of_replicate_some]; rfl)]
  have hmean : stats_mean (8 :: List.replicate k (8:ℝ)) = 8 := by
    simp [stats_mean]
    rw [div_eq_iff (by positivity)]
    ring
  have hcond : mean_branch_cond (8 :: List.replicate k (8:ℝ)) := by
    simp [mean_branch_cond, hmean, LOWER, UPPER, PUNISH_DEFICIT, PUNISH_SURPLUS]
    norm_num
  simp [main_score, deficit_adjusted, surplus_adjusted, hcond, days_unlogged,
    hours_deficit, hours_surplus, SCORE_OFFSET, LOWER, UPPER, PUNISH_DEFICIT, PUNISH_SURPLUS]
  norm_num
  positivity

lemma stats_mean_mem_bounds (hours : List ℝ) (hne : hours ≠ [])
    (hb : ∀ x ∈ hours, 0 ≤ x ∧ x ≤ 24) :
    0 ≤ stats_mean hours ∧ stats_mean hours ≤ 24 := by
  have hlen : (0:ℝ) < hours.length := by
    have : 0 < hours.length := List.length_pos.mpr hne
    exact_mod_cast this
  constructor
  · exact div_nonneg (List.sum_nonneg (fun x hx => (hb x hx).1)) (le_of_lt hlen)
  · rw [stats_mean, div_le_iff₀ hlen]
    calc hours.sum ≤ hours.length • (24:ℝ) :=
          List.sum_le_card_nsmul hours 24 (fun x hx => (hb x hx).2)
      _ = 24 * hours.length := by rw [nsmul_eq_mul]; ring

lemma hours_variance_le_bound (hours : List ℝ) (hne : hours ≠ [])
    (hb : ∀ x ∈ hours, 0 ≤ x ∧ x ≤ 24) :
    hours_variance hours ≤ 144 := by
  have hlen : (0:ℝ) < hours.length := by
    have : 0 < hours.length := List.length_pos.mpr hne
    exact_mod_cast this
  have hsq : (hours.map (fun h => h ^ 2)).sum ≤ (hours.map (fun h => 24 * h)).sum := by
    apply List.sum_le_sum
    intro i hi
    nlinarith [(hb i hi).1, (hb i hi).2]
  have hmul : ∀ l : List ℝ, (l.map (fun h => 24 * h)).sum = 24 * l.sum := by
    intro l
    induction l with
    | nil => simp
    | cons x t ih =>
      simp only [List.map_cons, List.sum_cons, ih]
      ring
  have hm : stats_mean hours = hours.sum / hours.length := rfl
  have hmean := stats_mean_mem_bounds hours hne hb
  rw [hours_variance]
  have h1 : (hours.map (fun h => h ^ 2)).sum / (hours.length : ℝ) ≤ 24 * stats_mean hours := by
    rw [hm, div_le_iff₀ hlen]
    calc (hours.map (fun h => h ^ 2)).sum ≤ 24 * hours.sum := by rw [← hmul]; exact hsq
      _ = 24 * (hours.sum / hours.length) * hours.length := by field_simp
  nlinarith [hmean.1, hmean.2, sq_nonneg (stats_mean hours - 12)]

lemma deficit_surplus_bound (hours : List ℝ)
    (hb : ∀ x ∈ hours, 0 ≤ x ∧ x ≤ 24) :
    hours_deficit hours + hours_surplus hours * PUNISH_SURPLUS ≤ 8 * hours.length := by
  induction hours with
  | nil => simp [hours_deficit, hours_surplus]
  | cons x t ih =>
    have hx := hb x (by simp)
    have ht := ih (fun y hy => hb y (by simp [hy]))
    simp only [hours_deficit, hours_surplus, List.map_cons, List.sum_cons,
      List.length_cons] at ht ⊢
    have hP : PUNISH_SURPLUS = 8 / 15 := by
      simp [PUNISH_SURPLUS, LOWER, UPPER]; norm_num
    rw [hP] at ht ⊢
    simp only [LOWER, UPPER] at ht ⊢
    push_cast
    split_ifs with h1 h2
    · nlinarith [hx.1, hx.2]
    · nlinarith [hx.1, hx.2]
    · nlinarith [hx.1, hx.2]

lemma python_round_bounds (x : ℝ) (a b : ℤ) (ha : (a:ℝ) ≤ x) (hb : x ≤ (b:ℝ)) :
    a ≤ python_round x ∧ python_round x ≤ b := by
  rw [python_round]
  split_ifs with h1 h2
  · exact ⟨Int.le_floor.mpr ha, le_trans (Int.floor_mono hb) (by simp)⟩
  · constructor
    · exact le_trans (Int.le_floor.mpr ha) (by omega)
    · have hxb : x < (b:ℝ) := by
        rcases lt_or_eq_of_le hb with h | h
        · exact h
        · exfalso
          rw [h] at h1
          simp [Int.fract_intCast] at h1
      have hfb : ⌊x⌋ < b := Int.floor_lt.mpr hxb
      omega
  · have hhalf : ⌊(1:ℝ)/2⌋ = 0 := by
      rw [Int.floor_eq_zero_iff]
      constructor <;> norm_num
    rw [round_eq]
    constructor
    · calc a = ⌊((a:ℤ):ℝ) + 1/2⌋ := by rw [Int.floor_int_add, hhalf]; ring
        _ ≤ ⌊x + 1/2⌋ := Int.floor_mono (by linarith)
    · calc ⌊x + 1/2⌋ ≤ ⌊((b:ℤ):ℝ) + 1/2⌋ := Int.floor_mono (by linarith)
        _ = b := by rw [Int.floor_int_add, hhalf]; ring

lemma select_window_merge {α : Type} (ranks : List α) (u : ℕ) (n : ℤ) (rad : ℕ)
    (hn : 0 ≤ n) (hc : (u:ℤ) - (rad:ℤ) ≤ n + 1) :
    select_window ranks u n rad = (slice_py ranks 0 (max n.toNat (u + rad + 1)), []) := by
  simp only [select_window, slice_py, max_eq_left hn]
  rw [if_pos hc]
  simp

lemma select_window_split {α : Type} (ranks : List α) (u : ℕ) (n : ℤ) (rad : ℕ)
    (hn : 0 ≤ n) (hc : ¬ ((u:ℤ) - (rad:ℤ) ≤ n + 1)) :
    select_window ranks u n rad
      = (slice_py ranks 0 n.toNat, slice_py ranks (u - rad) (u + rad + 1)) := by
  simp only [select_window, slice_py, max_eq_left hn]
  rw [if_neg hc]
  simp

lemma select_window_absent_merge {α : Type} (ranks : List α) (n : ℤ) (rad : ℕ)
    (hn : 0 ≤ n) (hc : (ranks.length:ℤ) - (rad:ℤ) ≤ n + 1) :
    select_window ranks ranks.length n rad = (ranks, []) := by
  rw [select_window_merge ranks ranks.length n rad hn hc]
  simp only [slice_py, List.drop_zero, Nat.sub_zero]
  rw [List.take_of_length_le (by omega)]

lemma select_window_absent_split {α : Type} (ranks : List α) (n : ℤ) (rad : ℕ)
    (hn : 0 ≤ n) (hc : ¬ ((ranks.length:ℤ) - (rad:ℤ) ≤ n + 1)) :
    select_window ranks ranks.length n rad
      = (ranks.take n.toNat, ranks.drop (ranks.length - rad)) := by
  rw [select_window_split ranks ranks.length n rad hn hc]
  simp only [slice_py, List.drop_zero, Nat.sub_zero]
  have hlen : rad < ranks.length := by omega
  congr 1
  apply List.take_of_length_le
  rw [List.length_drop]
  omega

lemma month_of_day_index_eq_ten_iff (d : ℕ) :
    month_of_day_index d = 10 ↔ (273 ≤ d ∧ d < 304) := by
  unfold month_of_day_index
  by_cases h1 : d < 31
  · rw [if_pos h1]; omega
  rw [if_neg h1]
  by_cases h2 : d < 59
  · rw [if_pos h2]; omega
  rw [if_neg h2]
  by_cases h3 : d < 90
  · rw [if_pos h3]; omega
  rw [if_neg h3]
  by_cases h4 : d < 120
  · rw [if_pos h4]; omega
  rw [if_neg h4]
  by_cases h5 : d < 151
  · rw [if_pos h5]; omega
  rw [if_neg h5]
  by_cases h6 : d < 181
  · rw [if_pos h6]; omega
  rw [if_neg h6]
  by_cases h7 : d < 212
  · rw [if_pos h7]; omega
  rw [if_neg h7]
  by_cases h8 : d < 243
  · rw [if_pos h8]; omega
  rw [if_neg h8]
  by_cases h9 : d < 273
  · rw [if_pos h9]; omega
  rw [if_neg h9]
  by_cases h10 : d < 304
  · rw [if_pos h10]; omega
  rw [if_neg h10]
  by_cases h11 : d < 334
  · rw [if_pos h11]; omega
  rw [if_neg h11]
  by_cases h12 : d < 365
  · rw [if_pos h12]; omega
  rw [if_neg h12]
  omega

lemma month_start_of_day_index_october (d : ℕ) (h1 : 273 ≤ d) (h2 : d < 304) :
    month_start_of_day_index d = 273 := by
  unfold month_start_of_day_index
  have hq1 : ¬ d < 31 := by omega
  have hq2 : ¬ d < 59 := by omega
  have hq3 : ¬ d < 90 := by omega
  have hq4 : ¬ d < 120 := by omega
  have hq5 : ¬ d < 151 := by omega
  have hq6 : ¬ d < 181 := by omega
  have hq7 : ¬ d < 212 := by omega
  have hq8 : ¬ d < 243 := by omega
  have hq9 : ¬ d < 273 := by omega
  have hq10 : d < 304 := h2
  rw [if_neg hq1, if_neg hq2, if_neg hq3, if_neg hq4, if_neg hq5, if_neg hq6,
    if_neg hq7, if_neg hq8, if_neg hq9, if_pos hq10]

lemma october_index (d h mi : ℕ) (hd1 : 1 ≤ d) (hd2 : d ≤ 31) (hh : h < 24)
    (hmi : mi < 60) :
    get_sleeptober_index (encode_datetime 10 d h mi)
      = (if 22 * 60 ≤ h * 60 + mi then some (d - 1)
         else if 2 ≤ d then some (d - 2) else none) := by
  simp only [get_sleeptober_index]
  have hy : encode_datetime 10 d h mi - 22 * 60
      = (273 + (d - 1)) * 1440 + h * 60 + mi - 1320 := by
    simp [encode_datetime, month_start_of_year]
  rw [hy]
  by_cases hc : 22 * 60 ≤ h * 60 + mi
  · have hdiv : ((273 + (d - 1)) * 1440 + h * 60 + mi - 1320) / 1440 = 272 + d := by omega
    rw [show month_of ((273 + (d - 1)) * 1440 + h * 60 + mi - 1320)
          = month_of_day_index (272 + d) by rw [month_of, day_of_year, hdiv]]
    rw [if_pos ((month_of_day_index_eq_ten_iff _).mpr (by omega))]
    rw [show day_of_month ((273 + (d - 1)) * 1440 + h * 60 + mi - 1320)
          = (272 + d) - month_start_of_day_index (272 + d) + 1
        by rw [day_of_month, day_of_year, hdiv]]
    rw [month_start_of_day_index_october _ (by omega) (by omega), if_pos hc]
    exact congrArg some (by omega)
  · rcases Nat.lt_or_ge d 2 with hd | hd
    · have hdiv : ((273 + (d - 1)) * 1440 + h * 60 + mi - 1320) / 1440 = 272 := by omega
      rw [show month_of ((273 + (d - 1)) * 1440 + h * 60 + mi - 1320)
            = month_of_day_index 272 by rw [month_of, day_of_year, hdiv]]
      rw [if_neg (by rw [month_of_day_index_eq_ten_iff]; omega), if_neg hc,
        if_neg (by omega)]
    · have hdiv : ((273 + (d - 1)) * 1440 + h * 60 + mi - 1320) / 1440 = 271 + d := by omega
      rw [show month_of ((273 + (d - 1)) * 1440 + h * 60 + mi - 1320)
            = month_of_day_index (271 + d) by rw [month_of, day_of_year, hdiv]]
      rw [if_pos ((month_of_day_index_eq_ten_iff _).mpr (by omega))]
      rw [show day_of_month ((273 + (d - 1)) * 1440 + h * 60 + mi - 1320)
            = (271 + d) - month_start_of_day_index (271 + d) + 1
          by rw [day_of_month, day_of_year, hdiv]]
      rw [month_start_of_day_index_october _ (by omega) (by omega), if_neg hc, if_pos hd]
      exact congrArg some (by omega)

lemma september_index (d h mi : ℕ) (hd1 : 1 ≤ d) (hd2 : d ≤ 30) (hh : h < 24)
    (hmi : mi < 60) :
    get_sleeptober_index (encode_datetime 9 d h mi) = none := by
  simp only [get_sleeptober_index]
  have hy : encode_datetime 9 d h mi - 22 * 60
      = (243 + (d - 1)) * 1440 + h * 60 + mi - 1320 := by
    simp [encode_datetime, month_start_of_year]
  rw [hy]
  by_cases hc : 22 * 60 ≤ h * 60 + mi
  · have hdiv : ((243 + (d - 1)) * 1440 + h * 60 + mi - 1320) / 1440 = 242 + d := by omega
    rw [show month_of ((243 + (d - 1)) * 1440 + h * 60 + mi - 1320)
          = month_of_day_index (242 + d) by rw [month_of, day_of_year, hdiv]]
    rw [if_neg (by rw [month_of_day_index_eq_ten_iff]; omega)]
  · have hdiv : ((243 + (d - 1)) * 1440 + h * 60 + mi - 1320) / 1440 = 241 + d := by omega
    rw [show month_of ((243 + (d - 1)) * 1440 + h * 60 + mi - 1320)
          = month_of_day_index (241 + d) by rw [month_of, day_of_year, hdiv]]
    rw [if_neg (by rw [month_of_day_index_eq_ten_iff]; omega)]

lemma leaderboard_min_days_congr (data : List (String × List (Option ℝ)))
    (current_date_index : ℕ) (sort_key : SleepStats → ℝ) (sort_down : Bool)
    (m1 m2 : ℤ) (target : String)
    (h : min_days_clamped m1 current_date_index = min_days_clamped m2 current_date_index) :
    leaderboard data current_date_index sort_key sort_down m1 target
      = leaderboard data current_date_index sort_key sort_down m2 target := by
  unfold leaderboard
  rw [h]

lemma experimental_single_eight : experimental_of 1 [some (8:ℝ)] = some 0 := by
  rw [experimental_of, compute_sleep_stats, show hours_of [some (8:ℝ)] = [8] from rfl]
  simp only [Except.toOption, Option.map_some]
  congr 1
  rw [experimental_score]
  have hdev : hours_deviation [(8:ℝ)] = 0 := by
    rw [hours_deviation, show hours_variance [(8:ℝ)] = 0 by
      simp [hours_variance, stats_mean]]
    exact Real.sqrt_zero
  have hmh : mean_heuristic [(8:ℝ)] = 0 := by
    rw [mean_heuristic]
    simp [stats_mean, LOWER]
  rw [show heuristics 1 [(8:ℝ)] = [0, 0, 0] by
    rw [heuristics, hdev, hmh, days_unlogged]
    norm_num]
  norm_num [python_round, Int.fract]

/-! ## Claim theorems -/

/-- C1 (corrected, counterexample): the claim "score is always nonnegative
for readings in [0,24]" fails: for the readings 0h, 24h and 29 unset days
over the full 31-day window, `compute_sleep_stats` yields the score -348/5,
which is negative. -/
theorem c1_score_nonneg_counterexample :
    score_of 31 (some 0 :: some 24 :: List.replicate 29 none) = some (-(348/5)) ∧
    ¬ (0 ≤ (-(348/5) : ℝ)) := by
  constructor
  · have hh : hours_of (some 0 :: some 24 :: List.replicate 29 (none : Option ℝ))
        = [0, 24] := by
      have : hours_of (List.replicate 29 (none : Option ℝ)) = [] :=
        hours_of_all_none _ (by simp)
      simpa [hours_of] using this
    rw [score_of_cons 31 _ 0 [24] hh]
    have hvar : hours_variance [(0:ℝ), 24] = 144 := by
      simp [hours_variance, stats_mean]
      norm_num
    have hdev : hours_deviation [(0:ℝ), 24] = 12 := by
      rw [hours_deviation, hvar, sqrt_onefortyfour]
    have hcond : ¬ mean_branch_cond [(0:ℝ), 24] := by
      simp [mean_branch_cond, stats_mean, LOWER, UPPER, PUNISH_DEFICIT, PUNISH_SURPLUS]
      norm_num
    simp [main_score, deficit_adjusted, surplus_adjusted, hcond, days_unlogged, hdev,
      hours_deficit, hours_surplus, SCORE_OFFSET, LOWER, UPPER, PUNISH_DEFICIT,
      PUNISH_SURPLUS]
    norm_num
  · norm_num

/-- C1 (corrected, amended): for readings with set values in [0,24], when
every day of the window is logged (days = windowLength, 1 ≤ windowLength ≤ 31)
the score is nonnegative; the worst-case uniform scenarios (0h every night,
or 24h every night, over the full 31-day window) score exactly 0 — not
`scoreOffset`; with unset days the score can be negative. -/
theorem c1_score_nonneg_amended :
    (∀ (w : ℕ) (ud : List (Option ℝ)) (sc : ℝ), w ≤ 31 →
      (∀ h : ℝ, some h ∈ ud → 0 ≤ h ∧ h ≤ 24) →
      (hours_of ud).length = w → 1 ≤ w →
      score_of w ud = some sc → 0 ≤ sc) ∧
    score_of 31 (List.replicate 31 (some 0)) = some 0 ∧
    score_of 31 (List.replicate 31 (some 24)) = some 0 := by
  refine ⟨?general, score_replicate_zero, score_replicate_twentyfour⟩
  intro w ud sc hw31 hb hfull hw1 hs
  cases hh : hours_of ud with
  | nil =>
    rw [hh] at hfull
    simp at hfull
    omega
  | cons h0 rest =>
    rw [score_of_cons w ud h0 rest hh] at hs
    have hsc : sc = main_score w (h0 :: rest) := (Option.some.inj hs).symm
    rw [hsc]
    have hbh : ∀ x ∈ (h0 :: rest), 0 ≤ x ∧ x ≤ 24 := by
      intro x hx
      exact hb x (mem_hours_of ud x (by rw [hh]; exact hx))
    have hlen : (h0 :: rest).length = w := by rw [← hh]; exact hfull
    have hun : days_unlogged w (h0 :: rest) = 0 := by
      rw [days_unlogged, hlen]
      ring
    have hbound := deficit_surplus_bound (h0 :: rest) hbh
    rw [main_score, hun]
    have hnegh : ¬ ((0:ℤ) > ((h0 :: rest).length : ℤ)) := by
      push_neg
      positivity
    rw [if_neg hnegh]
    rw [deficit_adjusted, surplus_adjusted, hun]
    simp only [Int.cast_zero, zero_mul, add_zero, ite_self]
    rw [SCORE_OFFSET, PUNISH_DEFICIT, LOWER]
    have hlenR : ((h0 :: rest).length : ℝ) = (w : ℝ) := by exact_mod_cast hlen
    have hwR : (w : ℝ) ≤ 31 := by exact_mod_cast hw31
    rw [hlenR] at hbound
    linarith

/-- C1 witness: the amended nonnegativity theorem applied to a single 8h
reading in a window of length 1. -/
theorem c1_score_nonneg_amended_witness :
    ((1:ℕ) ≤ 31 ∧ (hours_of [some (8:ℝ)]).length = 1 ∧
      score_of 1 [some (8:ℝ)] = some 248) ∧ (0:ℝ) ≤ 248 := by
  have hsc : score_of 1 [some (8:ℝ)] = some 248 := by
    simpa using score_replicate_eight 0
  refine ⟨⟨by norm_num, by simp [hours_of], hsc⟩, ?pos⟩
  exact c1_score_nonneg_amended.1 1 [some (8:ℝ)] 248 (by norm_num)
    (by intro h hh; simp at hh; subst hh; norm_num)
    (by simp [hours_of]) (by norm_num) hsc

/-- C2 (code bug): for the user map with A logging 8h on all 31 days and B
entirely unset, the leaderboard pipeline does not discard B: computing B's
stats fails (Python's `min` raises on the empty collected sequence at line
135, reached from the unguarded generator at line 499), so the whole
leaderboard request fails instead of returning A at rank 0 with B "not
found". -/
theorem c2_zero_reading_user_crash :
    leaderboard [("A", List.replicate 31 (some (8:ℝ))), ("B", List.replicate 31 none)]
      30 SleepStats.score true 1 "B" = .error .insufficientData := rfl

/-- C3 (confirmed): for a reading sequence with no set values, the collected
subsequence is empty and `compute_sleep_stats` fails with the
insufficient-data error, before any division is attempted. -/
theorem c3_insufficient_data (w : ℕ) (ud : List (Option ℝ))
    (h : ∀ x ∈ ud, x = none) :
    compute_sleep_stats w ud = .error .insufficientData := by
  rw [compute_sleep_stats, hours_of_all_none ud h]

/-- C3 witness: two unset readings with window length 5. -/
theorem c3_insufficient_data_witness :
    (∀ x ∈ ([none, none] : List (Option ℝ)), x = none) ∧
    compute_sleep_stats 5 [none, none] = .error .insufficientData :=
  ⟨by simp, c3_insufficient_data 5 [none, none] (by simp)⟩

/-- C4 (confirmed): the window selection merges the context block into the
top block exactly when rank - radius ≤ topN + 1, extending the top slice to
ranks[0, max(topN, rank+radius+1)); otherwise it emits
topSlice = ranks[0, topN) and contextSlice = ranks[rank-radius, rank+radius]
clipped; for 100 users, requester at rank 50, topN 10, radius 2, the slices
are ranks[0:10] and ranks[48:53]; at rank 8, a single merged ranks[0:11]. -/
theorem c4_select_window_spec :
    (∀ (α : Type) (ranks : List α) (u : ℕ) (n : ℤ) (rad : ℕ), 0 ≤ n →
      (((u:ℤ) - (rad:ℤ) ≤ n + 1) →
        select_window ranks u n rad
          = (slice_py ranks 0 (max n.toNat (u + rad + 1)), [])) ∧
      (¬ ((u:ℤ) - (rad:ℤ) ≤ n + 1) →
        select_window ranks u n rad
          = (slice_py ranks 0 n.toNat, slice_py ranks (u - rad) (u + rad + 1)))) ∧
    select_window (List.range 100) 50 10 2 = (List.range 10, [48, 49, 50, 51, 52]) ∧
    select_window (List.range 100) 8 10 2 = (List.range 11, []) :=
  ⟨fun α ranks u n rad hn =>
    ⟨select_window_merge ranks u n rad hn, select_window_split ranks u n rad hn⟩,
   by decide, by decide⟩

/-- C4 witness: the split case applied at rank 50, topN 10, radius 2 on 100
ranked users. -/
theorem c4_select_window_spec_witness :
    ((0:ℤ) ≤ 10 ∧ ¬ (((50:ℕ):ℤ) - ((2:ℕ):ℤ) ≤ 10 + 1)) ∧
    select_window (List.range 100) 50 10 2
      = (slice_py (List.range 100) 0 (10:ℤ).toNat,
         slice_py (List.range 100) (50 - 2) (50 + 2 + 1)) :=
  ⟨⟨by decide, by decide⟩,
   (c4_select_window_spec.1 ℕ (List.range 100) 50 10 2 (by decide)).2 (by decide)⟩

/-- C5 (corrected, counterexample): when the requesting user is not found,
the code sets the rank to the ranking's length (the while loop at lines
505-507 runs off the end), and for 20 ranked users with topN 10 and the
radius constant 2 the context slice is the nonempty trailing block
ranks[18:20], not empty as claimed. -/
theorem c5_not_found_counterexample :
    (select_window (List.range 20) ((List.range 20).findIdx (fun k => k == 99))
        10 USER_PREVIEW_WINDOW).2 = [18, 19] ∧
    ([18, 19] : List ℕ) ≠ [] := ⟨by decide, by decide⟩

/-- C5 (corrected, amended): when the requester is absent the rank used is
the ranking's length; the context slice is then empty only in the merge
case length - radius ≤ topN + 1 (where the top slice covers the whole
ranking); otherwise the context slice is the last radius entries of the
ranking. -/
theorem c5_not_found_amended :
    ∀ (α : Type) (ranks : List α) (n : ℤ) (rad : ℕ), 0 ≤ n →
      (((ranks.length:ℤ) - (rad:ℤ) ≤ n + 1) →
        select_window ranks ranks.length n rad = (ranks, [])) ∧
      (¬ ((ranks.length:ℤ) - (rad:ℤ) ≤ n + 1) →
        select_window ranks ranks.length n rad
          = (ranks.take n.toNat, ranks.drop (ranks.length - rad))) :=
  fun α ranks n rad hn =>
    ⟨select_window_absent_merge ranks n rad hn,
     select_window_absent_split ranks n rad hn⟩

/-- C5 witness: the amended characterization applied to 20 ranked users,
topN 10, radius 2, where the absent requester gets the trailing two
entries as context. -/
theorem c5_not_found_amended_witness :
    ((0:ℤ) ≤ 10 ∧ ¬ ((((List.range 20).length:ℤ) - ((2:ℕ):ℤ) ≤ 10 + 1))) ∧
    select_window (List.range 20) (List.range 20).length 10 2
      = ((List.range 20).take (10:ℤ).toNat,
         (List.range 20).drop ((List.range 20).length - 2)) :=
  ⟨⟨by decide, by decide⟩,
   (c5_not_found_amended ℕ (List.range 20) 10 2 (by decide)).2 (by decide)⟩

/-- C8 (confirmed): `get_sleeptober_index` subtracts 22 hours and returns
day-of-month - 1 when the lagged instant falls in October, none otherwise:
for October day d at time h:mi, the result is d-1 from 22:00 onwards and
d-2 before (none on October 1st before 22:00); September timestamps give
none; one hour past midnight on October 3rd yields index 1. -/
theorem c8_sleeptober_index :
    (∀ d h mi : ℕ, 1 ≤ d → d ≤ 31 → h < 24 → mi < 60 →
      get_sleeptober_index (encode_datetime 10 d h mi)
        = (if 22 * 60 ≤ h * 60 + mi then some (d - 1)
           else if 2 ≤ d then some (d - 2) else none)) ∧
    (∀ d h mi : ℕ, 1 ≤ d → d ≤ 30 → h < 24 → mi < 60 →
      get_sleeptober_index (encode_datetime 9 d h mi) = none) ∧
    get_sleeptober_index (encode_datetime 10 3 1 0) = some 1 :=
  ⟨october_index, september_index, by decide⟩

/-- C8 witness: the October characterization applied at 01:00 on the 3rd. -/
theorem c8_sleeptober_index_witness :
    ((1:ℕ) ≤ 3 ∧ (3:ℕ) ≤ 31 ∧ (1:ℕ) < 24 ∧ (0:ℕ) < 60) ∧
    get_sleeptober_index (encode_datetime 10 3 1 0)
      = (if 22 * 60 ≤ 1 * 60 + 0 then some (3 - 1)
         else if 2 ≤ 3 then some (3 - 2) else none) :=
  ⟨by decide, c8_sleeptober_index.1 3 1 0 (by decide) (by decide) (by decide) (by decide)⟩

/-- C10 (confirmed): the leaderboard clamps the minimum-days filter to
max(0, min(minDays, windowLength)) with windowLength = currentIndex + 1, so
a negative minDays behaves as 0 and a minDays above the window length
behaves as the window length. -/
theorem c10_min_days_clamp (data : List (String × List (Option ℝ)))
    (current_date_index : ℕ) (sort_key : SleepStats → ℝ) (sort_down : Bool)
    (target : String) (m : ℤ) :
    (m ≤ 0 → leaderboard data current_date_index sort_key sort_down m target
      = leaderboard data current_date_index sort_key sort_down 0 target) ∧
    (((current_date_index:ℤ) + 1) ≤ m →
      leaderboard data current_date_index sort_key sort_down m target
        = leaderboard data current_date_index sort_key sort_down
            ((current_date_index:ℤ) + 1) target) ∧
    min_days_clamped m current_date_index
      = max 0 (min m ((current_date_index:ℤ) + 1)) := by
  refine ⟨?neg, ?big, rfl⟩
  · intro hm
    apply leaderboard_min_days_congr
    unfold min_days_clamped
    omega
  · intro hm
    apply leaderboard_min_days_congr
    unfold min_days_clamped
    omega

/-- C10 witness: a negative minDays of -5 behaves as 0 on an empty user
map with window index 0. -/
theorem c10_min_days_clamp_witness :
    ((-5:ℤ) ≤ 0) ∧
    leaderboard [] 0 SleepStats.score true (-5) "x"
      = leaderboard [] 0 SleepStats.score true 0 "x" :=
  ⟨by decide, (c10_min_days_clamp [] 0 SleepStats.score true "x" (-5)).1 (by decide)⟩

/-- C6 (corrected, counterexample): the score offset is not
windowLength * L * deficitWeight: for window length 1 a perfect single 8h
log scores 248 (the hardcoded 31 * 8 * 1 of line 176), not 1 * 8 * 1. -/
theorem c6_score_offset_counterexample :
    score_of 1 [some (8:ℝ)] = some 248 ∧ (248:ℝ) ≠ 1 * 8 * 1 := by
  constructor
  · simpa using score_replicate_eight 0
  · norm_num

/-- C6 (corrected, amended): the score offset is the fixed constant
31 * L * deficitWeight = 248 regardless of the window length: an all-8h log
over any window of length w ≥ 1 scores exactly 31 * 8 * 1. -/
theorem c6_score_offset_amended :
    (∀ w : ℕ, 1 ≤ w →
      score_of w (List.replicate w (some (8:ℝ))) = some (31 * 8 * 1)) ∧
    SCORE_OFFSET = 31 * 8 * 1 := by
  constructor
  · intro w hw
    cases w with
    | zero => omega
    | succ k =>
      rw [score_replicate_eight k]
      norm_num
  · rw [SCORE_OFFSET, LOWER, PUNISH_DEFICIT]

/-- C6 witness: the amended offset behaviour at window length 2. -/
theorem c6_score_offset_amended_witness :
    (1:ℕ) ≤ 2 ∧ score_of 2 (List.replicate 2 (some (8:ℝ))) = some (31 * 8 * 1) :=
  ⟨by norm_num, c6_score_offset_amended.1 2 (by norm_num)⟩

/-- C7 (confirmed): over the full 31-day window, logging 0h every night and
logging 24h every night produce exactly the same score. -/
theorem c7_extremes_equal_score :
    score_of 31 (List.replicate 31 (some (0:ℝ)))
      = score_of 31 (List.replicate 31 (some (24:ℝ))) := by
  rw [score_replicate_zero, score_replicate_twentyfour]

/-- C9 (confirmed): for every nonempty reading sequence with set values in
[0,24], truncated to a window of length at most 31, the experimental score
lies in the integer range [0, 65536]: each heuristic is normalized into
[0,1] before the product-combine-and-rescale step. -/
theorem c9_experimental_score_bounds (w : ℕ) (ud : List (Option ℝ)) (e : ℤ)
    (hw : w ≤ 31) (hlen : ud.length ≤ w)
    (hb : ∀ h : ℝ, some h ∈ ud → 0 ≤ h ∧ h ≤ 24)
    (he : experimental_of w ud = some e) : 0 ≤ e ∧ e ≤ 65536 := by
  cases hh : hours_of ud with
  | nil =>
    rw [experimental_of, compute_sleep_stats, hh] at he
    simp [Except.toOption] at he
  | cons h0 rest =>
    rw [experimental_of, compute_sleep_stats, hh] at he
    simp [Except.toOption] at he
    subst he
    set hours : List ℝ := h0 :: rest with hhours
    have hne : hours ≠ [] := by simp [hhours]
    have hbh : ∀ x ∈ hours, 0 ≤ x ∧ x ≤ 24 := by
      intro x hx
      have hx2 : x ∈ hours_of ud := by rw [hh]; exact hx
      exact hb x (mem_hours_of ud x hx2)
    have hdays : hours.length ≤ w := by
      calc hours.length = (hours_of ud).length := by rw [hh]
        _ ≤ ud.length := List.length_filterMap_le id ud
        _ ≤ w := hlen
    have hdaypos : 1 ≤ hours.length := by simp [hhours]
    have hmean := stats_mean_mem_bounds hours hne hbh
    have hm : 0 ≤ mean_heuristic hours ∧ mean_heuristic hours ≤ 1 := by
      rw [mean_heuristic, LOWER]
      split_ifs with h
      · rw [abs_of_neg h]
        constructor
        · apply div_nonneg _ (by norm_num)
          linarith
        · rw [div_le_one (by norm_num)]
          linarith [hmean.1]
      · rw [abs_of_nonneg (by linarith [not_lt.mp h])]
        constructor
        · apply div_nonneg _ (by norm_num)
          linarith [not_lt.mp h]
        · rw [div_le_one (by norm_num)]
          linarith [hmean.2]
    have hd : 0 ≤ hours_deviation hours / 12 ∧ hours_deviation hours / 12 ≤ 1 := by
      constructor
      · exact div_nonneg (by rw [hours_deviation]; exact Real.sqrt_nonneg _) (by norm_num)
      · rw [div_le_one (by norm_num), hours_deviation]
        calc Real.sqrt (hours_variance hours) ≤ Real.sqrt 144 :=
              Real.sqrt_le_sqrt (hours_variance_le_bound hours hne hbh)
          _ = 12 := sqrt_onefortyfour
    have hu : 0 ≤ ((days_unlogged w hours : ℤ) : ℝ) / 31 ∧
        ((days_unlogged w hours : ℤ) : ℝ) / 31 ≤ 1 := by
      rw [days_unlogged]
      constructor
      · apply div_nonneg _ (by norm_num)
        push_cast
        have : (hours.length : ℝ) ≤ (w : ℝ) := by exact_mod_cast hdays
        linarith
      · rw [div_le_one (by norm_num)]
        push_cast
        have h31 : (w : ℝ) ≤ 31 := by exact_mod_cast hw
        have h0le : (0:ℝ) ≤ (hours.length : ℝ) := by positivity
        linarith
    rw [experimental_score]
    have hlen3 : (heuristics w hours).length = 3 := rfl
    rw [hlen3]
    set m := mean_heuristic hours
    set dh := hours_deviation hours / 12
    set uh := ((days_unlogged w hours : ℤ) : ℝ) / 31
    have hprod : ((heuristics w hours).map (fun h => 1 + h)).prod
        = (1 + m) * ((1 + dh) * ((1 + uh) * 1)) := by
      simp [heuristics]
    rw [hprod]
    have hmd : m * dh ≤ 1 := mul_le_one₀ hm.2 hd.1 hd.2
    have hmu : m * uh ≤ 1 := mul_le_one₀ hm.2 hu.1 hu.2
    have hdu : dh * uh ≤ 1 := mul_le_one₀ hd.2 hu.1 hu.2
    have hmdu : m * (dh * uh) ≤ 1 :=
      mul_le_one₀ hm.2 (mul_nonneg hd.1 hu.1) hdu
    have hP1 : 1 ≤ (1 + m) * ((1 + dh) * ((1 + uh) * 1)) := by
      nlinarith [hm.1, hd.1, hu.1, mul_nonneg hm.1 hd.1, mul_nonneg hm.1 hu.1,
        mul_nonneg hd.1 hu.1, mul_nonneg (mul_nonneg hm.1 hd.1) hu.1]
    have hP8 : (1 + m) * ((1 + dh) * ((1 + uh) * 1)) ≤ 8 := by
      nlinarith [hm.2, hd.2, hu.2, hmd, hmu, hdu, hmdu]
    have hx0 : ((0:ℤ):ℝ)
        ≤ ((1 + m) * ((1 + dh) * ((1 + uh) * 1)) - 1) / (2 ^ 3 - 1) * 2 ^ 16 := by
      push_cast
      have hq : (0:ℝ) ≤ ((1 + m) * ((1 + dh) * ((1 + uh) * 1)) - 1) / 7 := by
        apply div_nonneg _ (by norm_num)
        linarith
      nlinarith [hq]
    have hx1 : ((1 + m) * ((1 + dh) * ((1 + uh) * 1)) - 1) / (2 ^ 3 - 1) * 2 ^ 16
        ≤ ((65536:ℤ):ℝ) := by
      push_cast
      have hq : ((1 + m) * ((1 + dh) * ((1 + uh) * 1)) - 1) / 7 ≤ 1 := by
        rw [div_le_one (by norm_num)]
        linarith
      nlinarith [hq]
    exact python_round_bounds _ 0 65536 hx0 hx1

/-- C9 witness: a single 8h reading in a window of length 1 has experimental
score 0, which lies in the claimed range. -/
theorem c9_experimental_score_bounds_witness :
    ((1:ℕ) ≤ 31 ∧ ([some (8:ℝ)] : List (Option ℝ)).length ≤ 1 ∧
      experimental_of 1 [some (8:ℝ)] = some 0) ∧
    (0 ≤ (0:ℤ) ∧ (0:ℤ) ≤ 65536) :=
  ⟨⟨by norm_num, by norm_num, experimental_single_eight⟩,
   c9_experimental_score_bounds 1 [some (8:ℝ)] 0 (by norm_num) (by norm_num)
    (by intro h hh; simp at hh; subst hh; norm_num) experimental_single_eight⟩
